import Mathlib

/-!
# Verification of the fastga-rs alignment-record codec and filtering layer

This development shallowly embeds the core of the `fastga-rs` repository:
the `.1aln` binary alignment-record codec implemented in
`src/aln_filter_wrapper.c` (reader handle, record mapping, writer,
sequence-name lookup), together with the spec-described Rust-side
components (schema/resource guard, streaming query iterator, temp-file
naming, plane-sweep top-N filter) whose Rust sources are present in the
repository only through its documentation and specification.

Machine integers (`int64`/`int` in C) are modelled as `Int`; the C code
involved performs no arithmetic anywhere near the 64-bit boundary, so no
modular reduction is applied.
-/

namespace FastgaRs

/-- `AlnRecord` from `aln_filter_wrapper.h`: one alignment record exchanged
through the codec.  The C `int reverse` field is always written as 0/1, so it
is modelled as `Bool`. -/
@[ext] structure AlnRecord where
  query_id : Int
  query_start : Int
  query_end : Int
  target_id : Int
  target_start : Int
  target_end : Int
  reverse : Bool
  diffs : Int
  query_len : Int
  target_len : Int
deriving DecidableEq, Repr

/-- The fields of a `.1aln` `Overlap` that `aln_read_record` consumes:
`aread/bread` contig ids, contig-relative coordinates `abpos..bepos`, the
`COMP_FLAG` bit of `flags`, and `path.diffs`. -/
@[ext] structure Overlap where
  aread : Int
  abpos : Int
  aepos : Int
  bread : Int
  bbpos : Int
  bepos : Int
  comp : Bool
  diffs : Int
deriving DecidableEq, Repr

/-- The slice of a FastGA `GDB` (genome database skeleton) that
`aln_filter_wrapper.c` dereferences: contig count, per-contig scaffold id,
offset within the scaffold (`sbeg`) and contig length (`clen`); scaffold
count, per-scaffold length (`slen`) and header offset (`hoff`); total header
block size and the header text addressed by an offset.  Array accesses are
modelled as total functions, queried only at the indices the C code checks. -/
structure GDB where
  ncontig : Int
  contigScaf : Int → Int
  contigSbeg : Int → Int
  contigClen : Int → Int
  nscaff : Int
  scafSlen : Int → Int
  scafHoff : Int → Int
  hdrtot : Int
  headerAt : Int → String

/-- The contig→scaffold record mapping performed by `aln_read_record`
(`aln_filter_wrapper.c:97-142`): query coordinates are shifted by the contig
offset; target coordinates are additionally reflected through
`sbeg + clen` on the reverse strand; an out-of-range contig id yields the
sentinel `-1` id with zeroed coordinates on that side. -/
def readOverlapRecord (gdb1 gdb2 : GDB) (ovl : Overlap) : AlnRecord :=
  { reverse := ovl.comp
    diffs := ovl.diffs
    query_id :=
      if 0 ≤ ovl.aread ∧ ovl.aread < gdb1.ncontig then gdb1.contigScaf ovl.aread else -1
    query_len :=
      if 0 ≤ ovl.aread ∧ ovl.aread < gdb1.ncontig then
        gdb1.scafSlen (gdb1.contigScaf ovl.aread) else 0
    query_start :=
      if 0 ≤ ovl.aread ∧ ovl.aread < gdb1.ncontig then
        ovl.abpos + gdb1.contigSbeg ovl.aread else 0
    query_end :=
      if 0 ≤ ovl.aread ∧ ovl.aread < gdb1.ncontig then
        ovl.aepos + gdb1.contigSbeg ovl.aread else 0
    target_id :=
      if 0 ≤ ovl.bread ∧ ovl.bread < gdb2.ncontig then gdb2.contigScaf ovl.bread else -1
    target_len :=
      if 0 ≤ ovl.bread ∧ ovl.bread < gdb2.ncontig then
        gdb2.scafSlen (gdb2.contigScaf ovl.bread) else 0
    target_start :=
      if 0 ≤ ovl.bread ∧ ovl.bread < gdb2.ncontig then
        (if ovl.comp then gdb2.contigSbeg ovl.bread + gdb2.contigClen ovl.bread - ovl.bepos
         else ovl.bbpos + gdb2.contigSbeg ovl.bread) else 0
    target_end :=
      if 0 ≤ ovl.bread ∧ ovl.bread < gdb2.ncontig then
        (if ovl.comp then gdb2.contigSbeg ovl.bread + gdb2.contigClen ovl.bread - ovl.bbpos
         else ovl.bepos + gdb2.contigSbeg ovl.bread) else 0 }

/-- The reader handle (`AlnHandle` in `aln_filter_wrapper.c`): the two
loaded database skeletons, the file's overlap records in file order, and
the forward cursor `current_idx`.  A successfully opened well-formed file
reports `num_alignments` equal to the number of stored records, so the
count is `overlaps.length`. -/
structure AlnHandle where
  gdb1 : GDB
  gdb2 : GDB
  overlaps : List Overlap
  current_idx : Nat

/-- The total record count `aln_open` reports through `num_alignments`. -/
def aln_num_alignments (h : AlnHandle) : Nat := h.overlaps.length

/-- `aln_read_record` (`aln_filter_wrapper.c:76-147`): at end of stream
(cursor at or past the record count) return `none` (C: `-1`) and leave the
handle unchanged; otherwise return the mapped record at the cursor (C: `0`)
and advance the cursor by one. -/
def aln_read_record (h : AlnHandle) : Option AlnRecord × AlnHandle :=
  match h.overlaps.get? h.current_idx with
  | none => (none, h)
  | some ovl =>
      (some (readOverlapRecord h.gdb1 h.gdb2 ovl), { h with current_idx := h.current_idx + 1 })

/-- The handle state after `k` calls to `aln_read_record`. -/
def readState (h : AlnHandle) : Nat → AlnHandle
  | 0 => h
  | k + 1 => (aln_read_record (readState h k)).2

/-- The value returned by the `(k+1)`-st call to `aln_read_record`. -/
def readResult (h : AlnHandle) (k : Nat) : Option AlnRecord :=
  (aln_read_record (readState h k)).1

/-- The validity invariant on an `AlnRecord`:
`0 ≤ start ≤ end ≤ sequence_length` on both the query and the target side. -/
def ValidRecord (r : AlnRecord) : Prop :=
  0 ≤ r.query_start ∧ r.query_start ≤ r.query_end ∧ r.query_end ≤ r.query_len ∧
  0 ≤ r.target_start ∧ r.target_start ≤ r.target_end ∧ r.target_end ≤ r.target_len

instance (r : AlnRecord) : Decidable (ValidRecord r) := by
  unfold ValidRecord; infer_instance

lemma aln_read_record_gdb1 (h : AlnHandle) : (aln_read_record h).2.gdb1 = h.gdb1 := by
  unfold aln_read_record
  cases h.overlaps.get? h.current_idx <;> rfl

lemma aln_read_record_gdb2 (h : AlnHandle) : (aln_read_record h).2.gdb2 = h.gdb2 := by
  unfold aln_read_record
  cases h.overlaps.get? h.current_idx <;> rfl

lemma aln_read_record_overlaps (h : AlnHandle) :
    (aln_read_record h).2.overlaps = h.overlaps := by
  unfold aln_read_record
  cases h.overlaps.get? h.current_idx <;> rfl

lemma readState_fields (h : AlnHandle) (k : Nat) :
    (readState h k).gdb1 = h.gdb1 ∧ (readState h k).gdb2 = h.gdb2 ∧
    (readState h k).overlaps = h.overlaps := by
  induction k with
  | zero => exact ⟨rfl, rfl, rfl⟩
  | succ k ih =>
      refine ⟨?_, ?_, ?_⟩
      · rw [readState, aln_read_record_gdb1, ih.1]
      · rw [readState, aln_read_record_gdb2, ih.2.1]
      · rw [readState, aln_read_record_overlaps, ih.2.2]

lemma readState_idx (h : AlnHandle) (h0 : h.current_idx = 0) (k : Nat) :
    (readState h k).current_idx = min k h.overlaps.length := by
  induction k with
  | zero => simpa [readState] using h0
  | succ k ih =>
      rw [readState]
      unfold aln_read_record
      rcases hov : (readState h k).overlaps.get? (readState h k).current_idx with _ | ovl
      · rw [(readState_fields h k).2.2, ih] at hov
        rw [List.get?_eq_none] at hov
        simp only [ih]
        omega
      · rw [(readState_fields h k).2.2, ih] at hov
        have hlt : min k h.overlaps.length < h.overlaps.length :=
          List.get?_eq_some.mp hov |>.1
        simp only [ih]
        omega

/-- C5: the reader is a forward-only cursor delivering exactly the file's
records in order: starting from a freshly opened handle (cursor 0), the
cursor after `k` reads is `min k n` (never decreasing, advancing by exactly
one on each successful read), and the `(k+1)`-st call returns the mapped
record at file position `k` when `k < n` and end-of-stream otherwise — so
the first `n` calls succeed in file order, all later calls report EOF, and
no record is ever re-delivered. -/
theorem c5_reader_forward_cursor (h : AlnHandle) (h0 : h.current_idx = 0) :
    (∀ k, (readState h k).current_idx = min k (aln_num_alignments h)) ∧
    (∀ k, readResult h k = (h.overlaps.get? k).map (readOverlapRecord h.gdb1 h.gdb2)) ∧
    (∀ k, (readState h k).current_idx ≤ (readState h (k + 1)).current_idx) ∧
    (∀ k, (readResult h k).isSome →
      (readState h (k + 1)).current_idx = (readState h k).current_idx + 1) := by
  have hres : ∀ k, readResult h k =
      (h.overlaps.get? k).map (readOverlapRecord h.gdb1 h.gdb2) := by
    intro k
    unfold readResult aln_read_record
    rcases hov : (readState h k).overlaps.get? (readState h k).current_idx with _ | ovl
    · rw [(readState_fields h k).2.2, readState_idx h h0] at hov
      rw [List.get?_eq_none] at hov
      have hnone : h.overlaps.get? k = none := by
        rw [List.get?_eq_none]; omega
      rw [List.get?_eq_getElem?] at hnone
      simp [hnone]
    · rw [(readState_fields h k).2.2, readState_idx h h0] at hov
      have hlt : min k h.overlaps.length < h.overlaps.length :=
        (List.get?_eq_some.mp hov).1
      have hk : min k h.overlaps.length = k := by omega
      rw [hk, List.get?_eq_getElem?] at hov
      simp [hov, (readState_fields h k).1, (readState_fields h k).2.1]
  refine ⟨fun k => readState_idx h h0 k, hres, ?_, ?_⟩
  · intro k
    rw [readState_idx h h0, readState_idx h h0]
    omega
  · intro k hk
    rw [hres k] at hk
    have hlt : k < h.overlaps.length := by
      by_contra hge
      have hnone : h.overlaps.get? k = none := by
        rw [List.get?_eq_none]; omega
      rw [List.get?_eq_getElem?] at hnone
      simp [hnone] at hk
    rw [readState_idx h h0, readState_idx h h0]
    omega

/-- A concrete one-contig, one-scaffold database skeleton used by witnesses. -/
def testGDB8 : GDB :=
  { ncontig := 1, contigScaf := fun _ => 0, contigSbeg := fun _ => 0,
    contigClen := fun _ => 8, nscaff := 1, scafSlen := fun _ => 8,
    scafHoff := fun _ => 0, hdrtot := 4, headerAt := fun _ => "s" }

/-- A concrete freshly opened two-record handle used by the C5 witness. -/
def testHandle2 : AlnHandle :=
  ⟨testGDB8, testGDB8, [⟨0, 0, 3, 0, 1, 4, false, 1⟩, ⟨0, 2, 5, 0, 0, 2, true, 0⟩], 0⟩

/-- C5 witness at a concrete two-record file. -/
theorem c5_reader_forward_cursor_witness :
    (readState testHandle2 3).current_idx = 2 ∧
    readResult testHandle2 1 =
      some (readOverlapRecord testGDB8 testGDB8 ⟨0, 2, 5, 0, 0, 2, true, 0⟩) := by
  have h1 := (c5_reader_forward_cursor testHandle2 rfl).1 3
  have h2 := (c5_reader_forward_cursor testHandle2 rfl).2.1 1
  refine ⟨?_, ?_⟩
  · rw [h1]; rfl
  · rw [h2]; rfl

/-- C6: a record mapped from a well-formed overlap — in-range contig ids,
`0 ≤ abpos ≤ aepos ≤ clen` and `0 ≤ bbpos ≤ bepos ≤ clen`, contigs lying
inside their scaffolds (`0 ≤ sbeg` and `sbeg + clen ≤ slen`) — satisfies
`0 ≤ start ≤ end ≤ sequence_length` on both sides, including through the
reverse-strand transformation, and its strand is exactly the `COMP` flag
bit, never inferred from coordinate order. -/
theorem c6_record_invariants (gdb1 gdb2 : GDB) (ovl : Overlap)
    (hq : 0 ≤ ovl.aread ∧ ovl.aread < gdb1.ncontig)
    (ht : 0 ≤ ovl.bread ∧ ovl.bread < gdb2.ncontig)
    (hqc : 0 ≤ ovl.abpos ∧ ovl.abpos ≤ ovl.aepos ∧ ovl.aepos ≤ gdb1.contigClen ovl.aread)
    (htc : 0 ≤ ovl.bbpos ∧ ovl.bbpos ≤ ovl.bepos ∧ ovl.bepos ≤ gdb2.contigClen ovl.bread)
    (hqs : 0 ≤ gdb1.contigSbeg ovl.aread ∧
      gdb1.contigSbeg ovl.aread + gdb1.contigClen ovl.aread ≤
        gdb1.scafSlen (gdb1.contigScaf ovl.aread))
    (hts : 0 ≤ gdb2.contigSbeg ovl.bread ∧
      gdb2.contigSbeg ovl.bread + gdb2.contigClen ovl.bread ≤
        gdb2.scafSlen (gdb2.contigScaf ovl.bread)) :
    ValidRecord (readOverlapRecord gdb1 gdb2 ovl) ∧
    (readOverlapRecord gdb1 gdb2 ovl).reverse = ovl.comp := by
  refine ⟨?_, rfl⟩
  unfold ValidRecord readOverlapRecord
  simp only [if_pos hq, if_pos ht]
  rcases hc : ovl.comp <;> simp only [if_pos, if_neg, Bool.false_eq_true,
    if_true, if_false] <;> omega

/-- A concrete two-contig, one-scaffold database skeleton (contig 0 at
offset 0 length 6, contig 1 at offset 7 length 5, scaffold length 12). -/
def testGDB12 : GDB :=
  { ncontig := 2, contigScaf := fun _ => 0, contigSbeg := fun i => if i = 1 then 7 else 0,
    contigClen := fun i => if i = 1 then 5 else 6, nscaff := 1, scafSlen := fun _ => 12,
    scafHoff := fun _ => 0, hdrtot := 4, headerAt := fun _ => "q" }

/-- C6 witness: a concrete reverse-strand overlap on a two-contig scaffold
layout. -/
theorem c6_record_invariants_witness :
    ValidRecord (readOverlapRecord testGDB12 testGDB12 ⟨0, 1, 4, 1, 0, 3, true, 2⟩) := by
  exact (c6_record_invariants testGDB12 testGDB12 ⟨0, 1, 4, 1, 0, 3, true, 2⟩
    (by decide) (by decide) (by decide) (by decide) (by decide) (by decide)).1

/-- C10: reading an overlap whose query (resp. target) contig index is out
of `[0, ncontig)` still succeeds (returns a record, C code `0`) and
advances the cursor by one; the delivered record carries the sentinel `-1`
id with zeroed start, end and length on that side, and the record is
neither reported as an error nor dropped from the stream. -/
theorem c10_out_of_range_sentinel (h : AlnHandle) (ovl : Overlap)
    (hget : h.overlaps.get? h.current_idx = some ovl) :
    ((aln_read_record h).1 = some (readOverlapRecord h.gdb1 h.gdb2 ovl) ∧
     (aln_read_record h).2.current_idx = h.current_idx + 1) ∧
    (¬ (0 ≤ ovl.aread ∧ ovl.aread < h.gdb1.ncontig) →
      (readOverlapRecord h.gdb1 h.gdb2 ovl).query_id = -1 ∧
      (readOverlapRecord h.gdb1 h.gdb2 ovl).query_len = 0 ∧
      (readOverlapRecord h.gdb1 h.gdb2 ovl).query_start = 0 ∧
      (readOverlapRecord h.gdb1 h.gdb2 ovl).query_end = 0) ∧
    (¬ (0 ≤ ovl.bread ∧ ovl.bread < h.gdb2.ncontig) →
      (readOverlapRecord h.gdb1 h.gdb2 ovl).target_id = -1 ∧
      (readOverlapRecord h.gdb1 h.gdb2 ovl).target_len = 0 ∧
      (readOverlapRecord h.gdb1 h.gdb2 ovl).target_start = 0 ∧
      (readOverlapRecord h.gdb1 h.gdb2 ovl).target_end = 0) := by
  refine ⟨?_, ?_, ?_⟩
  · unfold aln_read_record
    rw [hget]
    exact ⟨rfl, rfl⟩
  · intro hbad
    unfold readOverlapRecord
    simp [if_neg hbad]
  · intro hbad
    unfold readOverlapRecord
    simp [if_neg hbad]

/-- A concrete one-record handle whose overlap names out-of-range target
contig 5 of a one-contig database, for the C10 witness. -/
def testHandleBad : AlnHandle :=
  ⟨testGDB8, testGDB8, [⟨0, 0, 3, 5, 1, 4, false, 1⟩], 0⟩

/-- C10 witness: a one-record file whose overlap names target contig 5 of a
one-contig database. -/
theorem c10_out_of_range_sentinel_witness :
    (aln_read_record testHandleBad).2.current_idx = 1 ∧
    (readOverlapRecord testGDB8 testGDB8 ⟨0, 0, 3, 5, 1, 4, false, 1⟩).target_id = -1 := by
  have := c10_out_of_range_sentinel testHandleBad ⟨0, 0, 3, 5, 1, 4, false, 1⟩ rfl
  exact ⟨this.1.2, (this.2.2 (by decide)).1⟩

/-- One typed line of the `.1aln` container body, as emitted by
`aln_write_record` (`aln_filter_wrapper.c:273-320`): the `A` alignment
line, the `R` reverse flag, the `D` difference count, the `L` sequence
lengths, and the `T`/`X` trace auxiliary lines. -/
inductive AlnLine where
  | lineA (aread abpos aepos bread bbpos bepos : Int)
  | lineR
  | lineD (diffs : Int)
  | lineL (qlen tlen : Int)
  | lineT (trace : List Int)
  | lineX (diffs : List Int)
deriving DecidableEq, Repr

/-- `aln_write_record`: one `A` line carrying the record's ids and
coordinates verbatim (scaffold ids are written directly as contig ids —
the C comment says "assume scaffold ID == contig ID (simplified)"), an `R`
line iff the reverse flag is set, then `D`, `L`, `T`, `X` lines. -/
def aln_write_record (rec : AlnRecord) : List AlnLine :=
  [AlnLine.lineA rec.query_id rec.query_start rec.query_end
      rec.target_id rec.target_start rec.target_end]
  ++ (if rec.reverse then [AlnLine.lineR] else [])
  ++ [AlnLine.lineD rec.diffs, AlnLine.lineL rec.query_len rec.target_len,
      AlnLine.lineT [rec.target_end - rec.target_start], AlnLine.lineX [rec.diffs]]

/-- Modelled from the spec: the auxiliary-line scan performed by
`Read_Aln_Overlap` together with `Skip_Aln_Trace` (the vendored `alncode.c`
is not under `src/`).  Per the container-format description, a reader takes
the `R` flag and `D` difference count into the overlap and skips every
other auxiliary line type (`L`, `T`, `X`) it does not recognize, stopping
at the next `A` line or at end of input. -/
def consumeAux (o : Overlap) : List AlnLine → Overlap × List AlnLine
  | AlnLine.lineR :: rest => consumeAux { o with comp := true } rest
  | AlnLine.lineD d :: rest => consumeAux { o with diffs := d } rest
  | AlnLine.lineL _ _ :: rest => consumeAux o rest
  | AlnLine.lineT _ :: rest => consumeAux o rest
  | AlnLine.lineX _ :: rest => consumeAux o rest
  | [] => (o, [])
  | AlnLine.lineA a b c d e f :: rest => (o, AlnLine.lineA a b c d e f :: rest)

/-- Modelled from the spec: `Read_Aln_Overlap` parses one alignment record
group — an `A` line holding `aread, abpos, aepos, bread, bbpos, bepos`
followed by its auxiliary lines — into an `Overlap` (flags clear and zero
diffs unless `R`/`D` lines are present). -/
def read_Aln_Overlap : List AlnLine → Option (Overlap × List AlnLine)
  | AlnLine.lineA a b c d e f :: rest =>
      some (consumeAux ⟨a, b, c, d, e, f, false, 0⟩ rest)
  | _ => none

/-- Writing a record into a fresh container and reading it back: the lines
produced by `aln_write_record` are parsed by `Read_Aln_Overlap` and the
resulting overlap is mapped by `aln_read_record`'s contig→scaffold logic
against the databases the container references. -/
def writeReadRoundTrip (gdb1 gdb2 : GDB) (r : AlnRecord) : Option AlnRecord :=
  (read_Aln_Overlap (aln_write_record r)).map fun p => readOverlapRecord gdb1 gdb2 p.1

/-- An "identity-mapped" database layout: the id names an in-range contig
that is its own whole scaffold at offset 0, with length `len`.  This is the
layout under which the writer's "scaffold ID == contig ID" simplification
is exact. -/
def IdentityMapped (g : GDB) (id len : Int) : Prop :=
  0 ≤ id ∧ id < g.ncontig ∧ g.contigScaf id = id ∧ g.contigSbeg id = 0 ∧
  g.contigClen id = len ∧ g.scafSlen id = len

instance (g : GDB) (id len : Int) : Decidable (IdentityMapped g id len) := by
  unfold IdentityMapped; infer_instance

/-- The reflection the reader applies to a reverse-strand record's target
interval when the written coordinates are re-read through the
reverse-strand transformation. -/
def reflectTarget (r : AlnRecord) : AlnRecord :=
  { r with target_start := r.target_len - r.target_end,
           target_end := r.target_len - r.target_start }

/-- A concrete valid reverse-strand record on which the C1 round trip
fails: the reader maps the written target interval `[2,5]` of a length-10
sequence back as `[5,8]`. -/
def c1RevRecord : AlnRecord :=
  { query_id := 0, query_start := 0, query_end := 1, target_id := 0,
    target_start := 2, target_end := 5, reverse := true, diffs := 0,
    query_len := 10, target_len := 10 }

/-- An identity-mapped single-sequence database of length 10. -/
def idGDB10 : GDB :=
  { ncontig := 1, contigScaf := fun _ => 0, contigSbeg := fun _ => 0,
    contigClen := fun _ => 10, nscaff := 1, scafSlen := fun _ => 10,
    scafHoff := fun _ => 0, hdrtot := 4, headerAt := fun _ => "t" }

/-- C1 counterexample: `c1RevRecord` is a valid record (coordinates within
bounds on both sides, two-valued strand) over databases that map its ids
identically, yet writing it and reading it back does not return the same
record — the reverse-strand read transform reflects the target interval
the writer stored verbatim. -/
theorem c1_roundtrip_counterexample :
    ValidRecord c1RevRecord ∧
    IdentityMapped idGDB10 c1RevRecord.query_id c1RevRecord.query_len ∧
    IdentityMapped idGDB10 c1RevRecord.target_id c1RevRecord.target_len ∧
    writeReadRoundTrip idGDB10 idGDB10 c1RevRecord ≠ some c1RevRecord := by
  refine ⟨by decide, by decide, by decide, ?_⟩
  decide

/-- C1 (amended): the write-then-read round trip over identity-mapped
databases is the identity on forward-strand records, and reflects the
target interval (`start, end ↦ len - end, len - start`) on reverse-strand
records; all other fields always round-trip. -/
theorem c1_roundtrip_amended (gdb1 gdb2 : GDB) (r : AlnRecord)
    (hq : IdentityMapped gdb1 r.query_id r.query_len)
    (ht : IdentityMapped gdb2 r.target_id r.target_len) :
    writeReadRoundTrip gdb1 gdb2 r =
      some (if r.reverse then reflectTarget r else r) := by
  rcases r with ⟨qi, qs, qe, ti, ts, te, rev, df, ql, tl⟩
  obtain ⟨hq0, hq1, hq2, hq3, hq4, hq5⟩ := hq
  obtain ⟨ht0, ht1, ht2, ht3, ht4, ht5⟩ := ht
  have hqc : 0 ≤ qi ∧ qi < gdb1.ncontig := ⟨hq0, hq1⟩
  have htc : 0 ≤ ti ∧ ti < gdb2.ncontig := ⟨ht0, ht1⟩
  rcases rev
  · simp [writeReadRoundTrip, aln_write_record, read_Aln_Overlap, consumeAux,
      readOverlapRecord, reflectTarget, hqc, htc, hq2, hq3, hq4, hq5,
      ht2, ht3, ht4, ht5, AlnRecord.mk.injEq]
  · simp [writeReadRoundTrip, aln_write_record, read_Aln_Overlap, consumeAux,
      readOverlapRecord, reflectTarget, hqc, htc, hq2, hq3, hq4, hq5,
      ht2, ht3, ht4, ht5, AlnRecord.mk.injEq]

/-- A concrete forward-strand record for the C1 amended witness. -/
def c1FwdRecord : AlnRecord :=
  { query_id := 0, query_start := 1, query_end := 4, target_id := 0,
    target_start := 2, target_end := 7, reverse := false, diffs := 3,
    query_len := 10, target_len := 10 }

/-- C1 amended witness: the forward-strand round trip is the identity at a
concrete record. -/
theorem c1_roundtrip_amended_witness :
    writeReadRoundTrip idGDB10 idGDB10 c1FwdRecord = some c1FwdRecord := by
  have := c1_roundtrip_amended idGDB10 idGDB10 c1FwdRecord (by decide) (by decide)
  simpa using this

/-- Scaffold-name lookup against one database skeleton, as performed by
`aln_get_seq_name` (`aln_filter_wrapper.c:149-166`): reject an id outside
`[0, nscaff)`, reject a header offset outside `[0, hdrtot)`, otherwise
return the header text at `headers + hoff`. -/
def gdb_seq_name (gdb : GDB) (seq_id : Int) : Option String :=
  if seq_id < 0 ∨ gdb.nscaff ≤ seq_id then none
  else if gdb.scafHoff seq_id < 0 ∨ gdb.hdrtot ≤ gdb.scafHoff seq_id then none
  else some (gdb.headerAt (gdb.scafHoff seq_id))

/-- `aln_get_seq_name`: select `gdb1` when `which_db = 0`, else `gdb2`,
then look the id up in that database skeleton. -/
def aln_get_seq_name (h : AlnHandle) (seq_id : Int) (which_db : Int) : Option String :=
  gdb_seq_name (if which_db = 0 then h.gdb1 else h.gdb2) seq_id

/-- C8: `aln_get_seq_name` returns a name exactly when the id lies in
`[0, nscaff)` of the referenced database and its header offset lies in
`[0, hdrtot)`, and returns `none` otherwise; the lookup factors through the
embedded database skeleton carried by the handle (`gdb_seq_name` takes only
the `GDB` value loaded at open time), so resolution never consults the
original FASTA inputs. -/
theorem c8_seq_name_lookup (h : AlnHandle) (seq_id which_db : Int) :
    (aln_get_seq_name h seq_id which_db =
      gdb_seq_name (if which_db = 0 then h.gdb1 else h.gdb2) seq_id) ∧
    (∀ g : GDB, ((gdb_seq_name g seq_id).isSome ↔
      (0 ≤ seq_id ∧ seq_id < g.nscaff ∧
       0 ≤ g.scafHoff seq_id ∧ g.scafHoff seq_id < g.hdrtot))) ∧
    (∀ g : GDB, ¬ (0 ≤ seq_id ∧ seq_id < g.nscaff ∧
       0 ≤ g.scafHoff seq_id ∧ g.scafHoff seq_id < g.hdrtot) →
      gdb_seq_name g seq_id = none) := by
  refine ⟨rfl, ?_, ?_⟩
  · intro g
    unfold gdb_seq_name
    constructor
    · intro hs
      by_contra hbad
      rcases Classical.em (seq_id < 0 ∨ g.nscaff ≤ seq_id) with h1 | h1
      · rw [if_pos h1] at hs; simp at hs
      · rcases Classical.em (g.scafHoff seq_id < 0 ∨ g.hdrtot ≤ g.scafHoff seq_id) with h2 | h2
        · rw [if_neg h1, if_pos h2] at hs; simp at hs
        · push_neg at h1 h2
          exact hbad ⟨by omega, by omega, by omega, by omega⟩
    · intro hg
      rw [if_neg (by omega), if_neg (by omega)]
      simp
  · intro g hbad
    unfold gdb_seq_name
    rcases Classical.em (seq_id < 0 ∨ g.nscaff ≤ seq_id) with h1 | h1
    · rw [if_pos h1]
    · rw [if_neg h1]
      rcases Classical.em (g.scafHoff seq_id < 0 ∨ g.hdrtot ≤ g.scafHoff seq_id) with h2 | h2
      · rw [if_pos h2]
      · push_neg at h1 h2
        exact absurd ⟨by omega, by omega, by omega, by omega⟩ hbad

/-- C8 witness: in-range and out-of-range lookups on a concrete handle. -/
theorem c8_seq_name_lookup_witness :
    aln_get_seq_name testHandle2 0 0 = some "s" ∧
    aln_get_seq_name testHandle2 1 0 = none := by
  have h0 := (c8_seq_name_lookup testHandle2 0 0).1
  have h1 := (c8_seq_name_lookup testHandle2 1 0).2.2 testGDB8 (by decide)
  refine ⟨?_, ?_⟩
  · rw [h0]; rfl
  · have : (if (0 : Int) = 0 then testHandle2.gdb1 else testHandle2.gdb2) = testGDB8 := rfl
    rw [(c8_seq_name_lookup testHandle2 1 0).1, this, h1]

/-- The outcome environment for one `aln_create` call: whether `Read_GDB`
succeeds on a given path, whether `make_Aln_Schema` succeeds, and whether
`oneFileOpenWriteNew` succeeds.  (The C `malloc` calls for the small handle
structs are assumed to succeed; their failure paths free nothing but the
handle itself.) -/
structure CreateEnv where
  readGDB : String → Bool
  schema_ok : Bool
  fileOpen_ok : Bool

/-- The metadata lines `aln_create` writes to a fresh container before
returning: the provenance line, the two database-reference lines, and the
trace-spacing `t` line. -/
inductive MetaLine where
  | provenance (prog ver cmd : String)
  | reference (path : String) (which : Int)
  | tspaceLine (v : Int)
deriving DecidableEq, Repr

/-- A writer handle as returned by `aln_create`: the metadata lines already
written to its open container file. -/
structure AlnWriter where
  lines : List MetaLine
deriving DecidableEq, Repr

/-- Resource accounting for one `aln_create` call.  `gdb1Loaded`/`gdb2Loaded`
record successful `Read_GDB` calls, `…Closed` record `Close_GDB` calls on the
error path, `fileOpened/fileClosed` the container file and `schemaCreated/
schemaDestroyed` the compiled schema descriptor. -/
structure CreateLedger where
  gdb1Loaded : Bool
  gdb2Loaded : Bool
  sharedGdb : Bool
  gdb1Closed : Bool
  gdb2Closed : Bool
  fileOpened : Bool
  fileClosed : Bool
  schemaCreated : Bool
  schemaDestroyed : Bool
deriving DecidableEq, Repr

/-- `aln_create` (`aln_filter_wrapper.c:197-271`): load the first database;
share it when both paths coincide, else load the second; compile the schema;
open the container for writing; then immediately write provenance, both
database references and the trace-spacing line.  Any failure runs the
`error:` cleanup — `Close_GDB`/free on the non-null database structs (the
second only when distinct from the first) and `oneFileClose` on the file —
and returns null. -/
def aln_create (env : CreateEnv) (gdb1_path gdb2_path : String) :
    Option AlnWriter × CreateLedger :=
  if ¬ env.readGDB gdb1_path then
    (none, { gdb1Loaded := false, gdb2Loaded := false, sharedGdb := false,
             gdb1Closed := true, gdb2Closed := false, fileOpened := false,
             fileClosed := false, schemaCreated := false, schemaDestroyed := false })
  else if gdb1_path ≠ gdb2_path ∧ ¬ env.readGDB gdb2_path then
    (none, { gdb1Loaded := true, gdb2Loaded := false, sharedGdb := false,
             gdb1Closed := true, gdb2Closed := true, fileOpened := false,
             fileClosed := false, schemaCreated := false, schemaDestroyed := false })
  else if ¬ env.schema_ok then
    (none, { gdb1Loaded := true, gdb2Loaded := gdb1_path ≠ gdb2_path,
             sharedGdb := gdb1_path = gdb2_path,
             gdb1Closed := true, gdb2Closed := gdb1_path ≠ gdb2_path,
             fileOpened := false, fileClosed := false,
             schemaCreated := false, schemaDestroyed := false })
  else if ¬ env.fileOpen_ok then
    (none, { gdb1Loaded := true, gdb2Loaded := gdb1_path ≠ gdb2_path,
             sharedGdb := gdb1_path = gdb2_path,
             gdb1Closed := true, gdb2Closed := gdb1_path ≠ gdb2_path,
             fileOpened := false, fileClosed := false,
             schemaCreated := true, schemaDestroyed := true })
  else
    (some { lines := [MetaLine.provenance "sweepga" "0.1.0" "sweepga filter",
                      MetaLine.reference gdb1_path 1,
                      MetaLine.reference gdb2_path 2,
                      MetaLine.tspaceLine 100] },
     { gdb1Loaded := true, gdb2Loaded := gdb1_path ≠ gdb2_path,
       sharedGdb := gdb1_path = gdb2_path,
       gdb1Closed := false, gdb2Closed := false,
       fileOpened := true, fileClosed := false,
       schemaCreated := true, schemaDestroyed := false })

/-- Every resource the call acquired has been released: each loaded
database closed, the container file closed if it was opened, the compiled
schema destroyed if it was compiled. -/
def Released (l : CreateLedger) : Prop :=
  (l.gdb1Loaded = true → l.gdb1Closed = true) ∧
  (l.gdb2Loaded = true → l.gdb2Closed = true) ∧
  (l.fileOpened = true → l.fileClosed = true) ∧
  (l.schemaCreated = true → l.schemaDestroyed = true)

instance (l : CreateLedger) : Decidable (Released l) := by
  unfold Released; infer_instance

/-- C9: `aln_create` either returns a writer whose container already holds
the provenance line and both database-reference lines (plus the
trace-spacing line), or returns null having released every partially
acquired resource; it never returns a writer whose metadata has not been
written. -/
theorem c9_create_metadata_or_release (env : CreateEnv) (gdb1_path gdb2_path : String) :
    (∀ w : AlnWriter, (aln_create env gdb1_path gdb2_path).1 = some w →
      w.lines = [MetaLine.provenance "sweepga" "0.1.0" "sweepga filter",
                 MetaLine.reference gdb1_path 1,
                 MetaLine.reference gdb2_path 2,
                 MetaLine.tspaceLine 100]) ∧
    ((aln_create env gdb1_path gdb2_path).1 = none →
      Released (aln_create env gdb1_path gdb2_path).2) := by
  unfold aln_create
  rcases Classical.em (¬ env.readGDB gdb1_path = true) with h1 | h1
  · rw [if_pos h1]
    exact ⟨fun w hw => by simp at hw, fun _ => by simp [Released]⟩
  · rw [if_neg h1]
    rcases Classical.em (gdb1_path ≠ gdb2_path ∧ ¬ env.readGDB gdb2_path = true) with h2 | h2
    · rw [if_pos h2]
      exact ⟨fun w hw => by simp at hw, fun _ => by simp [Released]⟩
    · rw [if_neg h2]
      rcases Classical.em (¬ env.schema_ok = true) with h3 | h3
      · rw [if_pos h3]
        refine ⟨fun w hw => by simp at hw, fun _ => ?_⟩
        refine ⟨fun _ => rfl, fun hl => ?_, fun hl => by simp at hl, fun hl => by simp at hl⟩
        simpa using hl
      · rw [if_neg h3]
        rcases Classical.em (¬ env.fileOpen_ok = true) with h4 | h4
        · rw [if_pos h4]
          refine ⟨fun w hw => by simp at hw, fun _ => ?_⟩
          refine ⟨fun _ => rfl, fun hl => ?_, fun hl => by simp at hl, fun _ => rfl⟩
          simpa using hl
        · rw [if_neg h4]
          refine ⟨fun w hw => ?_, fun hn => by simp at hn⟩
          exact congrArg AlnWriter.lines (Option.some.inj hw).symm

/-- C9 witness: a failing schema compilation releases both loaded
databases, and a fully successful environment yields the metadata lines. -/
theorem c9_create_metadata_or_release_witness :
    Released (aln_create ⟨fun _ => true, false, true⟩ "a.1gdb" "b.1gdb").2 ∧
    (aln_create ⟨fun _ => true, true, true⟩ "a.1gdb" "b.1gdb").1 =
      some { lines := [MetaLine.provenance "sweepga" "0.1.0" "sweepga filter",
                       MetaLine.reference "a.1gdb" 1,
                       MetaLine.reference "b.1gdb" 2,
                       MetaLine.tspaceLine 100] } := by
  exact ⟨(c9_create_metadata_or_release ⟨fun _ => true, false, true⟩ "a.1gdb" "b.1gdb").2
    (by decide), by decide⟩

/-- Modelled from the spec: the pipeline runner's temporary `.1aln` output
path (the Rust `runner.rs` is not under `src/`; the repository's
race-condition analysis quotes its naming scheme, which joins the working
directory with an underscore-tmp name holding only the process id). -/
def temp_aln_path (working_dir : String) (pid : Nat) : String :=
  working_dir ++ "/_tmp_" ++ toString pid ++ ".1aln"

/-- Modelled from the spec: the temp path allocated for one pipeline
invocation, where an invocation is identified by its working directory, its
process id, and an invocation ordinal within the process.  The code's
naming scheme ignores the ordinal: the path depends only on directory and
process id. -/
def invocation_temp_path (working_dir : String) (pid : Nat) (ordinal : Nat) : String :=
  temp_aln_path working_dir pid

/-- C4 (code bug): two distinct pipeline invocations running in the same
process (same pid, ordinals 0 and 1) with the same working directory are
assigned the identical temp `.1aln` path, refuting the claim that every
pair of invocations receives distinct paths from an atomic create-exclusive
mechanism. -/
theorem c4_temp_path_pid_collision :
    invocation_temp_path "/work" 1234 0 = invocation_temp_path "/work" 1234 1 ∧
    (0 : Nat) ≠ 1 ∧
    invocation_temp_path "/work" 1234 0 = "/work/_tmp_1234.1aln" := by
  refine ⟨rfl, by decide, ?_⟩
  rfl

/-- The thread-local control state of one writer-construction call inside
the Schema/Resource Guard protocol: not yet started, waiting for the guard,
compiling the schema while holding the guard, or finished. -/
inductive TState where
  | idle
  | waiting
  | compiling
  | done
deriving DecidableEq, Repr

/-- Modelled from the spec: the process-wide state of N concurrent writer
constructions serialized by the Schema/Resource Guard (the Rust
`create_aln_schema` with its process-wide mutex is not under `src/`; the
spec requires every schema compilation on the writer-construction path to
run under the guard's exclusive lock).  `lockHeld` is the guard's mutex. -/
structure GuardState where
  threads : List TState
  lockHeld : Bool
deriving DecidableEq, Repr

/-- Modelled from the spec: one scheduler step of the guarded protocol.  A
thread may start (entering the wait queue), acquire the free guard and
begin compiling, or finish compiling and release the guard.  Compilation is
entered only through acquisition of the guard. -/
inductive GuardStep : GuardState → GuardState → Prop where
  | start (ts : List TState) (l : Bool) (i : Nat) :
      ts.get? i = some TState.idle →
      GuardStep ⟨ts, l⟩ ⟨ts.set i TState.waiting, l⟩
  | acquire (ts : List TState) (i : Nat) :
      ts.get? i = some TState.waiting →
      GuardStep ⟨ts, false⟩ ⟨ts.set i TState.compiling, true⟩
  | finish (ts : List TState) (i : Nat) :
      ts.get? i = some TState.compiling →
      GuardStep ⟨ts, true⟩ ⟨ts.set i TState.done, false⟩

/-- Reflexive-transitive closure of `GuardStep`: a finite execution. -/
inductive GuardSteps : GuardState → GuardState → Prop where
  | refl (s : GuardState) : GuardSteps s s
  | tail (s t u : GuardState) : GuardSteps s t → GuardStep t u → GuardSteps s u

/-- The number of schema compilations in flight. -/
def inFlight (s : GuardState) : Nat :=
  s.threads.countP (fun t => t = TState.compiling)

/-- The initial state of `n` concurrent writer constructions: all idle,
guard free. -/
def guardInit (n : Nat) : GuardState :=
  ⟨List.replicate n TState.idle, false⟩

/-- The state in which all `n` constructions have completed. -/
def guardAllDone (n : Nat) : GuardState :=
  ⟨List.replicate n TState.done, false⟩

lemma countP_set (p : α → Bool) (l : List α) (i : Nat) (a x : α)
    (hget : l.get? i = some x) :
    (l.set i a).countP p + (if p x then 1 else 0) = l.countP p + (if p a then 1 else 0) := by
  induction l generalizing i with
  | nil => simp at hget
  | cons b l ih =>
      cases i with
      | zero =>
          simp only [List.get?] at hget
          cases hget
          simp only [List.set, List.countP_cons]
          omega
      | succ i =>
          simp only [List.get?] at hget
          simp only [List.set, List.countP_cons]
          have := ih i hget
          omega

/-- The guard invariant: the in-flight compilation count is at most one,
and it is zero whenever the guard is free. -/
def GuardInv (s : GuardState) : Prop :=
  inFlight s ≤ 1 ∧ (s.lockHeld = false → inFlight s = 0)

lemma guardInv_init (n : Nat) : GuardInv (guardInit n) := by
  constructor
  · show (List.replicate n TState.idle).countP _ ≤ 1
    rw [List.countP_eq_zero.mpr]
    · omega
    · intro a ha
      rw [List.eq_of_mem_replicate ha]
      decide
  · intro _
    show (List.replicate n TState.idle).countP _ = 0
    rw [List.countP_eq_zero.mpr]
    intro a ha
    rw [List.eq_of_mem_replicate ha]
    decide

lemma guardInv_step {s t : GuardState} (hs : GuardInv s) (hst : GuardStep s t) :
    GuardInv t := by
  obtain ⟨h1, h2⟩ := hs
  rcases hst with ⟨ts, l, i, hget⟩ | ⟨ts, i, hget⟩ | ⟨ts, i, hget⟩
  · have hc := countP_set (fun t => t = TState.compiling) ts i TState.waiting TState.idle hget
    simp only [inFlight, GuardInv] at h1 h2 ⊢
    simp at hc
    exact ⟨by omega, fun hl => by have := h2 hl; omega⟩
  · have hc := countP_set (fun t => t = TState.compiling) ts i TState.compiling TState.waiting hget
    simp only [inFlight, GuardInv] at h1 h2 ⊢
    simp at hc
    have hz := h2 trivial
    exact ⟨by omega, fun hl => by simp at hl⟩
  · have hc := countP_set (fun t => t = TState.compiling) ts i TState.done TState.compiling hget
    simp only [inFlight, GuardInv] at h1 h2 ⊢
    simp at hc
    exact ⟨by omega, fun _ => by omega⟩

lemma guardInv_steps {s t : GuardState} (hs : GuardInv s) (hst : GuardSteps s t) :
    GuardInv t := by
  induction hst with
  | refl => exact hs
  | tail t u _ hstep ih => exact guardInv_step ih hstep

lemma guardSteps_trans {s t u : GuardState} (h1 : GuardSteps s t) (h2 : GuardSteps t u) :
    GuardSteps s u := by
  induction h2 with
  | refl => exact h1
  | tail t u _ hstep ih => exact GuardSteps.tail _ _ _ ih hstep

lemma get?_done_append (k : Nat) (x : TState) (rest : List TState) :
    (List.replicate k TState.done ++ x :: rest).get? k = some x := by
  induction k with
  | zero => rfl
  | succ k ih => simpa [List.replicate_succ] using ih

lemma set_done_append (k : Nat) (x y : TState) (rest : List TState) :
    (List.replicate k TState.done ++ x :: rest).set k y =
    List.replicate k TState.done ++ y :: rest := by
  induction k with
  | zero => rfl
  | succ k ih => simpa [List.replicate_succ, List.set] using ih

lemma rep_append_done (k m : Nat) :
    List.replicate k TState.done ++ TState.done :: List.replicate m TState.idle =
    List.replicate (k + 1) TState.done ++ List.replicate m TState.idle := by
  induction k with
  | zero => rfl
  | succ k ih => simpa [List.replicate_succ] using ih

lemma guard_run_one (k m : Nat) :
    GuardSteps
      ⟨List.replicate k TState.done ++ List.replicate (m + 1) TState.idle, false⟩
      ⟨List.replicate (k + 1) TState.done ++ List.replicate m TState.idle, false⟩ := by
  have hrep : List.replicate (m + 1) TState.idle =
      TState.idle :: List.replicate m TState.idle := by
    simp [List.replicate_succ]
  have st1 : GuardStep
      ⟨List.replicate k TState.done ++ TState.idle :: List.replicate m TState.idle, false⟩
      ⟨List.replicate k TState.done ++ TState.waiting :: List.replicate m TState.idle, false⟩ := by
    have := GuardStep.start
      (List.replicate k TState.done ++ TState.idle :: List.replicate m TState.idle) false k
      (get?_done_append k TState.idle _)
    rwa [set_done_append] at this
  have st2 : GuardStep
      ⟨List.replicate k TState.done ++ TState.waiting :: List.replicate m TState.idle, false⟩
      ⟨List.replicate k TState.done ++ TState.compiling :: List.replicate m TState.idle, true⟩ := by
    have := GuardStep.acquire
      (List.replicate k TState.done ++ TState.waiting :: List.replicate m TState.idle) k
      (get?_done_append k TState.waiting _)
    rwa [set_done_append] at this
  have st3 : GuardStep
      ⟨List.replicate k TState.done ++ TState.compiling :: List.replicate m TState.idle, true⟩
      ⟨List.replicate k TState.done ++ TState.done :: List.replicate m TState.idle, false⟩ := by
    have := GuardStep.finish
      (List.replicate k TState.done ++ TState.compiling :: List.replicate m TState.idle) k
      (get?_done_append k TState.compiling _)
    rwa [set_done_append] at this
  rw [hrep]
  rw [← rep_append_done k m]
  exact GuardSteps.tail _ _ _ (GuardSteps.tail _ _ _
    (GuardSteps.tail _ _ _ (GuardSteps.refl _) st1) st2) st3

lemma guard_run_all (m k : Nat) :
    GuardSteps
      ⟨List.replicate k TState.done ++ List.replicate m TState.idle, false⟩
      ⟨List.replicate (k + m) TState.done, false⟩ := by
  induction m generalizing k with
  | zero => simpa using GuardSteps.refl ⟨List.replicate k TState.done, false⟩
  | succ m ih =>
      have h2 := ih (k + 1)
      have hnum : k + 1 + m = k + (m + 1) := by omega
      rw [hnum] at h2
      exact guardSteps_trans (guard_run_one k m) h2

/-- C2: in the guarded protocol that serializes every schema compilation on
the writer-construction path through the Schema/Resource Guard, any state
reachable from `n` concurrent writer constructions has at most one schema
compilation in flight, and there is an execution in which all `n`
constructions run to completion. -/
theorem c2_schema_guard_serializes (n : Nat) :
    (∀ s : GuardState, GuardSteps (guardInit n) s → inFlight s ≤ 1) ∧
    GuardSteps (guardInit n) (guardAllDone n) := by
  constructor
  · intro s hs
    exact (guardInv_steps (guardInv_init n) hs).1
  · have := guard_run_all n 0
    simpa [guardInit, guardAllDone] using this

/-- C2 witness at three concurrent writer constructions. -/
theorem c2_schema_guard_serializes_witness :
    inFlight (guardInit 3) ≤ 1 ∧ GuardSteps (guardInit 3) (guardAllDone 3) :=
  ⟨(c2_schema_guard_serializes 3).1 (guardInit 3) (GuardSteps.refl _),
   (c2_schema_guard_serializes 3).2⟩

/-- Modelled from the spec: the run of records sharing query id `q` at the
head of a stream, and the remainder.  This is the buffering step of the
Streaming Query Iterator (the Rust `QueryAlignmentIterator` is not under
`src/`): records are accumulated until the incoming query id changes. -/
def spanQuery (q : Int) : List AlnRecord → List AlnRecord × List AlnRecord
  | [] => ([], [])
  | r :: rs =>
      if r.query_id = q then
        ((r :: (spanQuery q rs).1), (spanQuery q rs).2)
      else ([], r :: rs)

lemma spanQuery_snd_length (q : Int) (rs : List AlnRecord) :
    (spanQuery q rs).2.length ≤ rs.length := by
  induction rs with
  | nil => simp [spanQuery]
  | cons a rs ih =>
      by_cases ha : a.query_id = q
      · simp only [spanQuery, if_pos ha]
        exact le_trans ih (Nat.le_succ _)
      · simp [spanQuery, ha]

/-- Modelled from the spec: the Streaming Query Iterator's grouping of a
record stream into emitted `QueryAlignmentSet`s.  A query boundary is
detected when the stream's query id changes from the previous record; all
records for the current query are buffered until the boundary and then
emitted as one completed set. -/
def groupByQuery : List AlnRecord → List (List AlnRecord)
  | [] => []
  | r :: rs =>
      (r :: (spanQuery r.query_id rs).1) :: groupByQuery (spanQuery r.query_id rs).2
termination_by l => l.length
decreasing_by
  simp only [List.length_cons]
  have := spanQuery_snd_length r.query_id rs
  omega

lemma groupByQuery_nil : groupByQuery [] = [] := by
  rw [groupByQuery]

lemma groupByQuery_cons (r : AlnRecord) (rs : List AlnRecord) :
    groupByQuery (r :: rs) =
    (r :: (spanQuery r.query_id rs).1) :: groupByQuery (spanQuery r.query_id rs).2 := by
  rw [groupByQuery]

/-- The sequence of first appearances of each value in a list, in order. -/
def firstAppearances : List Int → List Int
  | [] => []
  | q :: qs => q :: firstAppearances (qs.filter (fun x => x ≠ q))
termination_by l => l.length
decreasing_by
  simp only [List.length_cons]
  have := List.length_filter_le (fun x => x ≠ q) qs
  omega

lemma firstAppearances_nil : firstAppearances [] = [] := by
  rw [firstAppearances]

lemma firstAppearances_cons (q : Int) (qs : List Int) :
    firstAppearances (q :: qs) = q :: firstAppearances (qs.filter (fun x => x ≠ q)) := by
  rw [firstAppearances]

/-- The query id of an emitted set (its first record's query id). -/
def qidOf : List AlnRecord → Int
  | [] => 0
  | r :: _ => r.query_id

/-- A query-ordered stream: each query's records form one contiguous run —
after the run of the leading query id ends, that id never reappears. -/
inductive QueryOrdered : List AlnRecord → Prop where
  | nil : QueryOrdered []
  | cons (r : AlnRecord) (l1 l2 : List AlnRecord) :
      (∀ x ∈ l1, x.query_id = r.query_id) →
      (∀ x ∈ l2, x.query_id ≠ r.query_id) →
      QueryOrdered l2 →
      QueryOrdered (r :: (l1 ++ l2))

lemma spanQuery_run (q : Int) (l1 l2 : List AlnRecord)
    (h1 : ∀ x ∈ l1, x.query_id = q) (h2 : ∀ x ∈ l2, x.query_id ≠ q) :
    spanQuery q (l1 ++ l2) = (l1, l2) := by
  induction l1 with
  | nil =>
      cases l2 with
      | nil => rfl
      | cons s l2 =>
          simp only [List.nil_append, spanQuery,
            if_neg (h2 s (List.mem_cons_self s l2))]
  | cons a l1 ih =>
      have ha : a.query_id = q := h1 a (List.mem_cons_self a l1)
      simp only [List.cons_append, spanQuery, if_pos ha, List.append_eq,
        ih (fun x hx => h1 x (List.mem_cons_of_mem a hx))]

/-- C3: on a query-ordered stream, the Streaming Query Iterator emits sets
whose concatenation is exactly the input stream (so the multiset union of
all yielded records equals the input's multiset, with no reordering or
merging across queries); every emitted set is nonempty, homogeneous in one
query id, and contains exactly the input's records bearing that id (so a
set is complete when emitted); and sets are emitted in the first-appearance
order of their query ids. -/
theorem c3_query_iterator_partition (rs : List AlnRecord) (hord : QueryOrdered rs) :
    (groupByQuery rs).join = rs ∧
    (∀ g ∈ groupByQuery rs, g ≠ [] ∧ ∀ x ∈ g, x.query_id = qidOf g) ∧
    (∀ g ∈ groupByQuery rs, g = rs.filter (fun x => x.query_id = qidOf g)) ∧
    (groupByQuery rs).map qidOf = firstAppearances (rs.map (fun r => r.query_id)) := by
  induction hord with
  | nil =>
      refine ⟨by simp [groupByQuery_nil], by simp [groupByQuery_nil],
        by simp [groupByQuery_nil], ?_⟩
      simp [groupByQuery_nil, firstAppearances_nil]
  | cons r l1 l2 h1 h2 hl2 ih =>
      obtain ⟨ih1, ih2, ih3, ih4⟩ := ih
      have hspan : spanQuery r.query_id (l1 ++ l2) = (l1, l2) := spanQuery_run _ _ _ h1 h2
      have hgrp : groupByQuery (r :: (l1 ++ l2)) = (r :: l1) :: groupByQuery l2 := by
        rw [groupByQuery_cons, hspan]
      refine ⟨?_, ?_, ?_, ?_⟩
      · rw [hgrp]
        show (r :: l1) ++ (groupByQuery l2).join = r :: (l1 ++ l2)
        rw [ih1]
        rfl
      · rw [hgrp]
        intro g hg
        rcases List.mem_cons.mp hg with rfl | hg2
        · refine ⟨by simp, ?_⟩
          intro x hx
          rcases List.mem_cons.mp hx with rfl | hx1
          · rfl
          · exact h1 x hx1
        · exact ih2 g hg2
      · rw [hgrp]
        intro g hg
        rcases List.mem_cons.mp hg with rfl | hg2
        · have hqid : qidOf (r :: l1) = r.query_id := rfl
          rw [hqid]
          simp only [List.cons_append, List.filter_cons, decide_eq_true_eq]
          rw [if_pos trivial, List.filter_append]
          rw [List.filter_eq_self.mpr (by
            intro a ha
            simpa using h1 a ha)]
          rw [List.filter_eq_nil_iff.mpr (by
            intro a ha
            simpa using h2 a ha)]
          simp
        · have hchar := ih3 g hg2
          obtain ⟨hne, hhom⟩ := ih2 g hg2
          obtain ⟨y, g1, hgcases⟩ := List.exists_cons_of_ne_nil hne
          have hy : y ∈ l2 := by
            have hyg : y ∈ g := by rw [hgcases]; exact List.mem_cons_self y g1
            rw [hchar] at hyg
            exact (List.mem_filter.mp hyg).1
          have hyq : qidOf g ≠ r.query_id := by
            have hqy : qidOf g = y.query_id := by rw [hgcases]; rfl
            rw [hqy]
            exact h2 y hy
          have hr : (r :: (l1 ++ l2)).filter (fun x => decide (x.query_id = qidOf g)) =
              l2.filter (fun x => decide (x.query_id = qidOf g)) := by
            simp only [List.filter_cons, List.filter_append]
            rw [if_neg (by
              simp only [decide_eq_true_eq]
              exact fun hc => hyq hc.symm)]
            rw [List.filter_eq_nil_iff.mpr (by
              intro a ha
              simp only [decide_eq_true_eq]
              intro hc
              exact hyq (hc.symm.trans (h1 a ha)))]
            rw [List.nil_append]
          rw [hr]
          exact hchar
      · rw [hgrp]
        simp only [List.map_cons, List.map_append]
        rw [firstAppearances_cons]
        have hq1 : qidOf (r :: l1) = r.query_id := rfl
        rw [hq1, ih4]
        congr 1
        rw [List.filter_append]
        rw [List.filter_eq_nil_iff.mpr (by
          intro a ha
          obtain ⟨x, hx, rfl⟩ := List.mem_map.mp ha
          simpa using h1 x hx)]
        rw [List.filter_eq_self.mpr (by
          intro a ha
          obtain ⟨x, hx, rfl⟩ := List.mem_map.mp ha
          simpa using h2 x hx)]
        simp

/-- A minimal record with the given query id, for iterator witnesses. -/
def mkRec (q : Int) : AlnRecord :=
  { query_id := q, query_start := 0, query_end := 1, target_id := 0,
    target_start := 0, target_end := 1, reverse := false, diffs := 0,
    query_len := 1, target_len := 1 }

/-- C3 witness: the stream with query ids `5, 5, 7` is query-ordered and is
grouped into the two complete sets `[5, 5]` and `[7]`, in first-appearance
order. -/
theorem c3_query_iterator_partition_witness :
    (groupByQuery [mkRec 5, mkRec 5, mkRec 7]).join = [mkRec 5, mkRec 5, mkRec 7] ∧
    (groupByQuery [mkRec 5, mkRec 5, mkRec 7]).map qidOf = [5, 7] := by
  have hord : QueryOrdered [mkRec 5, mkRec 5, mkRec 7] :=
    QueryOrdered.cons (mkRec 5) [mkRec 5] [mkRec 7]
      (by decide) (by decide)
      (QueryOrdered.cons (mkRec 7) [] [] (by decide) (by decide) QueryOrdered.nil)
  have h := c3_query_iterator_partition [mkRec 5, mkRec 5, mkRec 7] hord
  refine ⟨h.1, ?_⟩
  rw [h.2.2.2]
  rw [List.map_cons, List.map_cons, List.map_cons, List.map_nil]
  rw [firstAppearances_cons]
  simp only [mkRec, List.filter_cons, List.filter_nil]
  norm_num
  rw [firstAppearances_cons, List.filter_nil, firstAppearances_nil]

/-- Modelled from the spec: a candidate record as ranked by the plane-sweep
group/top-N filter (the Rust `plane_sweep` module is not under `src/`):
its alignment block length in base pairs and its identity in hundredths
(0.99 is stored as 99). -/
structure SweepRecord where
  lengthBp : Nat
  identPct : Nat
deriving DecidableEq, Repr

/-- An exact integer key whose order coincides with the plane-sweep score
`identity × log(length)`: since `(p/100)·log L < (q/100)·log M` iff
`L^p < M^q` for lengths ≥ 1, comparing `lengthBp ^ identPct` compares the
scores exactly (proved as part of the C7 theorem). -/
def scoreKey (r : SweepRecord) : Nat := r.lengthBp ^ r.identPct

/-- The descending score preorder used to rank candidates. -/
def sweepGE (r s : SweepRecord) : Prop := scoreKey s ≤ scoreKey r

instance : DecidableRel sweepGE := fun r s => Nat.decLe (scoreKey s) (scoreKey r)

instance : IsTotal SweepRecord sweepGE :=
  ⟨fun a b => Nat.le_total (scoreKey b) (scoreKey a)⟩

instance : IsTrans SweepRecord sweepGE :=
  ⟨fun _ _ _ hab hbc => le_trans hbc hab⟩

/-- Modelled from the spec: the top-N retention step of the plane-sweep
filter — rank a query's candidate records by descending score and retain
the `maxN` best. -/
def planeSweepKeep (maxN : Nat) (l : List SweepRecord) : List SweepRecord :=
  (List.insertionSort sweepGE l).take maxN

/-- The candidates discarded by the top-N retention step. -/
def planeSweepDropped (maxN : Nat) (l : List SweepRecord) : List SweepRecord :=
  (List.insertionSort sweepGE l).drop maxN

/-- C7: for a query with at least `maxN` candidates of pairwise-distinct
scores, the top-N filter retains exactly `maxN` records; retained and
dropped records together are a permutation of the input; every retained
record strictly outscores every dropped record (so the retained ones are
exactly the `maxN` highest-scoring); the retained list is in descending
rank order; and the integer ranking key orders records exactly as the
spec's score `identity × log(length)`. -/
theorem c7_topn_filter (maxN : Nat) (l : List SweepRecord)
    (hlen : ∀ r ∈ l, 1 ≤ r.lengthBp)
    (hdist : (l.map scoreKey).Nodup)
    (hK : maxN ≤ l.length) :
    (planeSweepKeep maxN l).length = maxN ∧
    (planeSweepKeep maxN l ++ planeSweepDropped maxN l).Perm l ∧
    (∀ a ∈ planeSweepKeep maxN l, ∀ b ∈ planeSweepDropped maxN l,
      scoreKey b < scoreKey a) ∧
    (planeSweepKeep maxN l).Sorted sweepGE ∧
    (∀ r ∈ l, ∀ s ∈ l,
      ((r.identPct : ℝ) / 100 * Real.log r.lengthBp <
        (s.identPct : ℝ) / 100 * Real.log s.lengthBp ↔ scoreKey r < scoreKey s)) := by
  have hperm : (List.insertionSort sweepGE l).Perm l := List.perm_insertionSort sweepGE l
  have hsorted : (List.insertionSort sweepGE l).Sorted sweepGE :=
    List.sorted_insertionSort sweepGE l
  have hsplit : planeSweepKeep maxN l ++ planeSweepDropped maxN l =
      List.insertionSort sweepGE l := List.take_append_drop maxN _
  have hlensort : (List.insertionSort sweepGE l).length = l.length := hperm.length_eq
  refine ⟨?_, ?_, ?_, ?_, ?_⟩
  · unfold planeSweepKeep
    rw [List.length_take, hlensort]
    omega
  · rw [hsplit]
    exact hperm
  · intro a ha b hb
    have hge : sweepGE a b := by
      have hpw : (planeSweepKeep maxN l ++ planeSweepDropped maxN l).Pairwise sweepGE := by
        rw [hsplit]
        exact hsorted
      exact (List.pairwise_append.mp hpw).2.2 a ha b hb
    have hnodup : ((List.insertionSort sweepGE l).map scoreKey).Nodup :=
      ((hperm.map scoreKey).nodup_iff).mpr hdist
    have hne : scoreKey a ≠ scoreKey b := by
      rw [← hsplit, List.map_append] at hnodup
      have hdisj := (List.nodup_append.mp hnodup).2.2
      intro hc
      exact hdisj (List.mem_map_of_mem scoreKey ha) (hc ▸ List.mem_map_of_mem scoreKey hb)
    have : scoreKey b ≤ scoreKey a := hge
    omega
  · exact hsorted.sublist (List.take_sublist maxN _)
  · intro r hr s hs
    have h1 : (1 : ℝ) ≤ (r.lengthBp : ℝ) := by exact_mod_cast hlen r hr
    have h2 : (1 : ℝ) ≤ (s.lengthBp : ℝ) := by exact_mod_cast hlen s hs
    have key : ∀ t : SweepRecord, (t.identPct : ℝ) / 100 * Real.log t.lengthBp =
        Real.log ((t.lengthBp : ℝ) ^ t.identPct) / 100 := by
      intro t
      rw [Real.log_pow]
      ring
    rw [key r, key s, div_lt_div_iff_of_pos_right (by norm_num : (0 : ℝ) < 100)]
    rw [Real.log_lt_log_iff (by positivity)
      (by positivity)]
    have cast1 : ((r.lengthBp : ℝ) ^ r.identPct) = ((scoreKey r : ℕ) : ℝ) := by
      rw [scoreKey]; push_cast; ring
    have cast2 : ((s.lengthBp : ℝ) ^ s.identPct) = ((scoreKey s : ℕ) : ℝ) := by
      rw [scoreKey]; push_cast; ring
    rw [cast1, cast2]
    exact_mod_cast Iff.rfl

/-- The claim's concrete candidate set for query X: lengths
`[200, 150, 900, 50, 300]` with identities `[0.99, 0.80, 0.95, 0.99, 0.85]`. -/
def c7Records : List SweepRecord :=
  [⟨200, 99⟩, ⟨150, 80⟩, ⟨900, 95⟩, ⟨50, 99⟩, ⟨300, 85⟩]

/-- C7 witness: with `max_per_query = 3`, exactly the records of lengths
900, 200 and 300 are retained, in that rank order. -/
theorem c7_topn_filter_witness :
    (planeSweepKeep 3 c7Records).length = 3 ∧
    planeSweepKeep 3 c7Records =
      [⟨900, 95⟩, ⟨200, 99⟩, ⟨300, 85⟩] := by
  refine ⟨(c7_topn_filter 3 c7Records (by decide) (by decide) (by decide)).1, ?_⟩
  decide
